import Mathlib

/-!
Verification of the social-content-api repository (FastAPI + SQLAlchemy).

Shallow embedding conventions:
* Timestamps are integers counting minutes since the Unix epoch
  (`datetime.utcnow()` values, `timedelta(minutes=5)` = 5, one day = 1440).
  The day number of a timestamp `t` is `t.fdiv 1440`, and Python's
  `date.weekday()` (0 = Monday) of day `d` is `(d + 3) % 7` since the epoch
  day was a Thursday.  Python floor division / modulo on ints are `Int.fdiv`
  / `Int.emod` (equal for positive moduli).
* Nullable SQL columns are `Option` fields; SQL three-valued comparisons on
  NULL are modelled as false (a NULL never satisfies `<=`, `>=`, `>`).
* External calls and database commits that can raise are modelled by
  explicit outcome parameters (`Except Unit _` / `Bool`).
* `HH:MM` time-slot strings are modelled already parsed as (hour, minute)
  pairs; `datetime.replace(hour=h, minute=m)` validates its arguments, so an
  out-of-range pair raises (modelled as a crash) at the point of use.
-/

namespace SCA

/-- `PostStatus` enum from `app/models.py`. -/
inductive PostStatus where
  | draft
  | scheduled
  | published
  | failed
deriving DecidableEq

/-- A row of the `posts` table (`app/models.py`, class `Post`).
Only the columns read or written by the code under verification appear. -/
structure Post where
  id : Int
  author_id : Int
  content : String
  image_url : Option String
  status : PostStatus
  scheduled_time : Option Int
  published_time : Option Int
  linkedin_post_id : Option String
  linkedin_share_url : Option String
deriving DecidableEq

/-- A row of the `users` table (`app/models.py`, class `User`),
restricted to the LinkedIn-credential columns the workers read. -/
structure User where
  id : Int
  linkedin_access_token : Option String
  linkedin_refresh_token : Option String
  linkedin_token_expires_at : Option Int
  linkedin_profile_id : Option String
deriving DecidableEq

/-- A row of the `analytics` table (`app/models.py`, class `Analytics`).
Metric counters are naturals (LinkedIn counts, columns default 0);
`engagement_rate` is a signed DB Integer. -/
structure Analytics where
  post_id : Int
  user_id : Int
  impressions : Nat
  clicks : Nat
  likes : Nat
  comments : Nat
  shares : Nat
  engagement_rate : Int
  last_synced : Option Int
deriving DecidableEq

/-- A fresh `Analytics` row: every metric column defaults to 0
(`app/models.py` lines 122-129), `last_synced` NULL unless set. -/
def newAnalytics (post_id user_id : Int) : Analytics :=
  { post_id := post_id, user_id := user_id, impressions := 0, clicks := 0,
    likes := 0, comments := 0, shares := 0, engagement_rate := 0,
    last_synced := none }

/-- Token payload returned by `linkedin_api.refresh_access_token`
(`expires_in` kept in minutes, the embedding's time unit). -/
structure TokenData where
  access_token : String
  refresh_token : Option String
  expires_in : Int
deriving DecidableEq

/-- Response of `create_text_post` / `create_image_post`. -/
structure PubResponse where
  id : String
  shareUrl : String
deriving DecidableEq

/-- Outcomes of the fallible external operations one per-item iteration of
`process_scheduled_posts` can perform: the token refresh call, the publish
call, and the post-publish analytics-record creation block
(`app/worker.py` lines 110-119, query + insert + commit). -/
structure ItemEnv where
  refreshResult : Except Unit TokenData
  publishResult : Except Unit PubResponse
  analyticsOk : Bool

/-- Result of one per-item iteration of `process_scheduled_posts`:
the final post row, whether a publish call was issued, and the list of
`status` values committed for the post, in commit order. -/
structure ItemResult where
  post : Post
  publishAttempted : Bool
  committed : List PostStatus
deriving DecidableEq

/-- Due-item selection of `process_scheduled_posts`
(`app/worker.py` lines 28-37): status Scheduled and
`now - 5min < scheduled_time <= now + 5min`. -/
def selectDuePosts (now : Int) (posts : List Post) : List Post :=
  posts.filter fun p =>
    decide (p.status = PostStatus.scheduled) &&
    (match p.scheduled_time with
     | some t => decide (t ≤ now + 5) && decide (t > now - 5)
     | none => false)

/-- The publish phase of one iteration (`app/worker.py` lines 83-124):
publish, commit Published, then the analytics-creation block; any exception
in the whole try-body is caught at line 121 and commits Failed. -/
def publishPhase (now : Int) (env : ItemEnv) (post : Post) : ItemResult :=
  match env.publishResult with
  | Except.error _ =>
      { post := { post with status := PostStatus.failed },
        publishAttempted := true, committed := [PostStatus.failed] }
  | Except.ok resp =>
      let post1 : Post :=
        { post with status := PostStatus.published,
                    published_time := some now,
                    linkedin_post_id := some resp.id,
                    linkedin_share_url := some resp.shareUrl }
      if env.analyticsOk then
        { post := post1, publishAttempted := true,
          committed := [PostStatus.published] }
      else
        { post := { post1 with status := PostStatus.failed },
          publishAttempted := true,
          committed := [PostStatus.published, PostStatus.failed] }

/-- One per-item iteration of `process_scheduled_posts`
(`app/worker.py` lines 46-124), for a post whose author row was found:
credential checks, refresh on expiry, then the publish phase. -/
def processItem (now : Int) (env : ItemEnv) (user : User) (post : Post) :
    ItemResult :=
  match user.linkedin_access_token with
  | none =>
      { post := { post with status := PostStatus.failed },
        publishAttempted := false, committed := [PostStatus.failed] }
  | some _ =>
      let expired :=
        match user.linkedin_token_expires_at with
        | some e => decide (e ≤ now)
        | none => false
      if expired then
        match user.linkedin_refresh_token with
        | none =>
            { post := { post with status := PostStatus.failed },
              publishAttempted := false, committed := [PostStatus.failed] }
        | some _ =>
            match env.refreshResult with
            | Except.error _ =>
                { post := { post with status := PostStatus.failed },
                  publishAttempted := false,
                  committed := [PostStatus.failed] }
            | Except.ok _ => publishPhase now env post
      else
        publishPhase now env post

/-- One cycle of `process_scheduled_posts`: select the due posts and run the
per-item iteration on each, recording each post's committed statuses.
A missing author row (`continue` at line 52) commits nothing. -/
def processCycle (now : Int) (posts : List Post) (users : Int → Option User)
    (envs : Int → ItemEnv) : List (Int × List PostStatus) :=
  (selectDuePosts now posts).map fun p =>
    match users p.author_id with
    | none => (p.id, [])
    | some u => (p.id, (processItem now (envs p.id) u p).committed)

/-- The `Post.analytics.has(Analytics.last_synced <= one_day_ago)` test of
`sync_post_analytics` (`app/worker.py` line 157): true iff some analytics
row related to the post has a non-NULL `last_synced` that is `<= cutoff`
(SQL: a NULL `last_synced` never satisfies the comparison). -/
def hasStaleSynced (cutoff : Int) (recs : List Analytics) (pid : Int) : Bool :=
  recs.any fun a =>
    decide (a.post_id = pid) &&
    (match a.last_synced with
     | some t => decide (t ≤ cutoff)
     | none => false)

/-- The row filter of the `sync_post_analytics` selection query
(`app/worker.py` lines 148-161): Published, non-NULL `linkedin_post_id`,
and (published within one day) or (stale-synced analytics row and published
within one week).  NULL `published_time` satisfies neither disjunct. -/
def needsSync (now : Int) (recs : List Analytics) (p : Post) : Bool :=
  decide (p.status = PostStatus.published) &&
  p.linkedin_post_id.isSome &&
  ((match p.published_time with
    | some t => decide (t ≥ now - 1440)
    | none => false)
   ||
   (hasStaleSynced (now - 1440) recs p.id &&
    (match p.published_time with
     | some t => decide (t ≥ now - 7 * 1440)
     | none => false)))

/-- Rows satisfying the `sync_post_analytics` selection filter, in table
order. -/
def analyticsCandidates (now : Int) (posts : List Post)
    (recs : List Analytics) : List Post :=
  posts.filter (needsSync now recs)

/-- `posts_to_sync` of `app/worker.py` line 148-162: the filtered rows,
capped by `.limit(20)`. -/
def postsToSync (now : Int) (posts : List Post) (recs : List Analytics) :
    List Post :=
  (analyticsCandidates now posts recs).take 20

/-- One insertion step of the `posts_by_user` grouping
(`app/worker.py` lines 171-175): append the post to its author's group,
creating the group at the end on first sight (dict insertion order). -/
def addToGroups (gs : List (Int × List Post)) (p : Post) :
    List (Int × List Post) :=
  match gs with
  | [] => [(p.author_id, [p])]
  | (u, g) :: rest =>
      if u = p.author_id then (u, g ++ [p]) :: rest
      else (u, g) :: addToGroups rest p

/-- The `posts_by_user` grouping of the selected rows. -/
def groupByUser (l : List Post) : List (Int × List Post) :=
  l.foldl addToGroups []

/-- The posts for which the per-post sync body runs in one cycle of
`sync_post_analytics` (`app/worker.py` lines 178-238): each user group is
processed whole, or skipped whole (`continue`) when the user row is missing
or its credentials cannot be resolved, abstracted by `userTokenOk`. -/
def syncProcessed (now : Int) (posts : List Post) (recs : List Analytics)
    (userTokenOk : Int → Bool) : List Post :=
  (groupByUser (postsToSync now posts recs)).flatMap fun g =>
    if userTokenOk g.1 then g.2 else []

/-- The analytics payload the worker reads from
`linkedin_client.get_post_analytics` (keys `likes`, `comments`, `shares`,
each defaulting to 0 via `.get`). -/
structure ApiAnalytics where
  likes : Nat
  comments : Nat
  shares : Nat
deriving DecidableEq

/-- `Nat.log2` with explicit fuel (any fuel at least the argument gives
the floor base-2 logarithm); structural recursion keeps concrete
evaluation kernel-reducible. -/
def log2fuel : Nat → Nat → Nat
  | 0, _ => 0
  | fuel + 1, n => if 2 ≤ n then log2fuel fuel (n / 2) + 1 else 0

/-- IEEE-754 binary64 rounding (round to nearest, ties to even) of the
quotient `num / den` of two machine integers, as CPython's `int / int`
computes it.  The result is the dyadic rational `m * 2^e` returned as
`(m, e)`; faithful throughout the binary64 normal finite range, which
covers every quotient of counters below `2^1000`. -/
def roundQuotient (num den : Nat) : Nat × Int :=
  if num = 0 ∨ den = 0 then (0, 0)
  else
    let a := log2fuel num num
    let b := log2fuel den den
    let e0 : Int := (a : Int) - (b : Int)
    let ge : Bool := decide (den * 2 ^ e0.toNat ≤ num * 2 ^ (-e0).toNat)
    let ef : Int := if ge then e0 else e0 - 1
    let s : Int := 52 - ef
    let nn := num * 2 ^ s.toNat
    let dd := den * 2 ^ (-s).toNat
    let q := nn / dd
    let r := nn % dd
    let m := if dd < 2 * r then q + 1
             else if 2 * r < dd then q
             else if q % 2 = 1 then q + 1 else q
    (m, ef - 52)

/-- Round an exact dyadic value `p * 2^e` to 53 significant bits, ties to
even: the binary64 rounding step that follows an exact product. -/
def roundTo53 (p : Nat) (e : Int) : Nat × Int :=
  if p = 0 then (0, 0)
  else
    let l := log2fuel p p
    if l ≤ 52 then (p, e)
    else
      let t := l - 52
      let q := p / 2 ^ t
      let r := p % 2 ^ t
      let half := 2 ^ (t - 1)
      let m := if half < r then q + 1
               else if r < half then q
               else if q % 2 = 1 then q + 1 else q
      (m, e + t)

/-- binary64 multiplication of a double `(m, e)` by the small exactly
representable integer `k`: exact product, then one rounding. -/
def mulDoubleNat (d : Nat × Int) (k : Nat) : Nat × Int :=
  roundTo53 (d.1 * k) d.2

/-- Python `int(x)` on a nonnegative double: truncation toward zero. -/
def truncDouble (d : Nat × Int) : Nat :=
  if 0 ≤ d.2 then d.1 * 2 ^ d.2.toNat else d.1 / 2 ^ (-d.2).toNat

/-- `int((total / impressions) * 10000)` exactly as CPython evaluates it:
binary64 division, binary64 multiplication by 10000, truncation.  This can
differ from the exact truncated rational `total * 10000 / impressions`;
e.g. `86 / 125` gives 6879, not 6880. -/
def pyEngagementRate (total impressions : Nat) : Nat :=
  truncDouble (mulDoubleNat (roundQuotient total impressions) 10000)

/-- The per-record update step of `sync_post_analytics`
(`app/worker.py` lines 222-233): store the fetched counters, then set
`engagement_rate := int((total / impressions) * 10000)` — binary64
floating-point arithmetic, modelled bit-exactly by `pyEngagementRate` —
only when `impressions > 0`, and stamp `last_synced`.  The returned Bool
records whether the division was performed. -/
def syncUpdateRecord (now : Int) (a : Analytics) (d : ApiAnalytics) :
    Analytics × Bool :=
  let a1 : Analytics :=
    { a with likes := d.likes, comments := d.comments, shares := d.shares }
  let total : Nat := a1.likes + a1.comments + a1.shares
  if a1.impressions > 0 then
    ({ a1 with
        engagement_rate := (pyEngagementRate total a1.impressions : Int),
        last_synced := some now }, true)
  else
    ({ a1 with last_synced := some now }, false)

/-- Body of the analytics update request (`schemas.AnalyticsBase`, used by
`PUT /analytics/posts/{post_id}`): `none` models a field absent from the
request, following Pydantic's `exclude_unset` serialization. -/
structure AnalyticsUpdate where
  impressions : Option Nat := none
  clicks : Option Nat := none
  likes : Option Nat := none
  comments : Option Nat := none
  shares : Option Nat := none
  engagement_rate : Option Int := none

/-- The update branch of `crud.create_or_update_analytics`
(`app/crud.py` lines 259-262): `setattr` the record with exactly the
fields present in the request body — including `impressions` and
`engagement_rate`, with no consistency check between them. -/
def applyAnalyticsUpdate (a : Analytics) (u : AnalyticsUpdate) : Analytics :=
  { a with
    impressions := u.impressions.getD a.impressions,
    clicks := u.clicks.getD a.clicks,
    likes := u.likes.getD a.likes,
    comments := u.comments.getD a.comments,
    shares := u.shares.getD a.shares,
    engagement_rate := u.engagement_rate.getD a.engagement_rate }

/-- The `schedule_config` dict of `bulk_schedule_posts`
(`app/crud.py`): `Option` fields model `.get` on missing keys; dates are
minutes since epoch; `time_slots` are parsed `(hour, minute)` pairs. -/
structure ScheduleConfig where
  start_date : Option Int := none
  end_date : Option Int := none
  time_slots : Option (List (Nat × Nat)) := none
  days : Option (List String) := none
  weeks_ahead : Option Int := none
  days_ahead : Option Int := none

/-- The day-name table `day_map` of the `specific_days` branch
(`app/crud.py`), as a partial lookup: names outside the table are filtered
out by `if day in day_map`. -/
def dayMap (s : String) : Option Int :=
  if s = "Monday" then some 0
  else if s = "Tuesday" then some 1
  else if s = "Wednesday" then some 2
  else if s = "Thursday" then some 3
  else if s = "Friday" then some 4
  else if s = "Saturday" then some 5
  else if s = "Sunday" then some 6
  else none

/-- The float comparison `len(posts) / days_between <= len(time_slots)` of
the `evenly_spaced` branch, as an exact rational comparison
(`d` is nonzero at the call site; a negative `d` flips the inequality). -/
def pyDivLe (a b : Nat) (d : Int) : Bool :=
  if d > 0 then decide ((a : Int) ≤ (b : Int) * d)
  else decide ((b : Int) * d ≤ (a : Int))

/-- First `evenly_spaced` sub-branch (multiple slots per day): walk the
posts, breaking once `current_date > end_date`, emitting
`current_date.replace(hour, minute)` from the rotating slot list and
advancing a day when the slots wrap.  `slots.get? idx` failing is the
`IndexError` of `time_slots[time_slot_index]` on an empty list, and an
out-of-range slot is the `ValueError` of `.replace`. -/
def evenBranch1 (ed : Int) (slots : List (Nat × Nat)) :
    List Post → Int → Nat → Except Unit (List (Int × Int))
  | [], _, _ => Except.ok []
  | p :: ps, cur, idx =>
      if cur > ed then Except.ok []
      else
        match slots.get? idx with
        | none => Except.error ()
        | some (h, m) =>
            if 24 ≤ h ∨ 60 ≤ m then Except.error ()
            else
              let t := cur.fdiv 1440 * 1440 + (h : Int) * 60 + (m : Int)
              let idx1 := idx + 1
              let st := if slots.length ≤ idx1 then (0, cur + 1440)
                        else (idx1, cur)
              match evenBranch1 ed slots ps st.2 st.1 with
              | Except.error e => Except.error e
              | Except.ok rest => Except.ok ((p.id, t) :: rest)

/-- Second `evenly_spaced` sub-branch (spread across days):
`day_offset = int(i * days_between / len(posts))` (truncating division,
`Int.tdiv`), always using `time_slots[0]`. -/
def evenBranch2 (sd : Int) (slots : List (Nat × Nat)) (posts : List Post)
    (daysBetween : Int) : Except Unit (List (Int × Int)) :=
  match slots.get? 0 with
  | none => Except.error ()
  | some (h, m) =>
      if 24 ≤ h ∨ 60 ≤ m then Except.error ()
      else
        Except.ok (posts.enum.map fun ip =>
          let dayOff := Int.tdiv ((ip.1 : Int) * daysBetween)
            (posts.length : Int)
          let cur := sd + dayOff * 1440
          (ip.2.id, cur.fdiv 1440 * 1440 + (h : Int) * 60 + (m : Int)))

/-- The `evenly_spaced` branch of `bulk_schedule_posts`
(`app/crud.py`): a missing `start_date`/`end_date` key is the `TypeError`
of `datetime.fromisoformat(None)`, and `days_between = 0` is the
`ZeroDivisionError` of `len(posts) / days_between`. -/
def evenlySpaced (cfg : ScheduleConfig) (posts : List Post) :
    Except Unit (List (Int × Int)) :=
  match cfg.start_date, cfg.end_date with
  | some sd, some ed =>
      let slots := cfg.time_slots.getD [(9, 0)]
      let daysBetween := (ed - sd).fdiv 1440 + 1
      if daysBetween = 0 then Except.error ()
      else if pyDivLe posts.length slots.length daysBetween then
        evenBranch1 ed slots posts sd 0
      else
        evenBranch2 sd slots posts daysBetween
  | _, _ => Except.error ()

/-- Inner slot loop of the `specific_days` date generation: for one
matching date, build `combine(date, 00:00).replace(hour, minute)` for each
slot and keep it only when strictly after `now`.  An out-of-range slot is
the `ValueError` of `.replace` (raised before the `> now` test). -/
def slotTimes (now d : Int) : List (Nat × Nat) → Except Unit (List Int)
  | [] => Except.ok []
  | (h, m) :: rest =>
      if 24 ≤ h ∨ 60 ≤ m then Except.error ()
      else
        let t := d * 1440 + (h : Int) * 60 + (m : Int)
        match slotTimes now d rest with
        | Except.error e => Except.error e
        | Except.ok ts => Except.ok (if t > now then t :: ts else ts)

/-- The `possible_dates` loop of `specific_days`: walk the day range and
collect the slot times of days whose weekday is in `weekdays`. -/
def buildDates (now : Int) (weekdays : List Int) (slots : List (Nat × Nat)) :
    List Int → Except Unit (List Int)
  | [] => Except.ok []
  | d :: ds =>
      if (d + 3).emod 7 ∈ weekdays then
        match slotTimes now d slots with
        | Except.error e => Except.error e
        | Except.ok ts =>
            match buildDates now weekdays slots ds with
            | Except.error e => Except.error e
            | Except.ok rest => Except.ok (ts ++ rest)
      else buildDates now weekdays slots ds

/-- The consecutive day numbers from `s` to `e` inclusive (the
`while current_date <= end_date` walk); empty when `e < s`. -/
def mkDayRange (s e : Int) : List Int :=
  (List.range (e - s + 1).toNat).map fun i => s + (i : Int)

/-- The post-to-date assignment `for i, post in enumerate(posts): if i <
len(possible_dates): append (post.id, possible_dates[i])`. -/
def zipAssign (posts : List Post) (dates : List Int) : List (Int × Int) :=
  List.zipWith (fun p t => (p.id, t)) posts dates

/-- The `specific_days` branch of `bulk_schedule_posts` (`app/crud.py`):
unknown day names are dropped by the `if day in day_map` filter, dates run
from today through `7 * weeks_ahead` days ahead, and posts are assigned to
the generated dates in order. -/
def specificDays (now : Int) (cfg : ScheduleConfig) (posts : List Post) :
    Except Unit (List (Int × Int)) :=
  let days := cfg.days.getD ["Monday"]
  let slots := cfg.time_slots.getD [(9, 0)]
  let weeksAhead := cfg.weeks_ahead.getD 4
  let weekdays := days.filterMap dayMap
  let startDay := now.fdiv 1440
  match buildDates now weekdays slots
      (mkDayRange startDay (startDay + 7 * weeksAhead)) with
  | Except.error e => Except.error e
  | Except.ok dates => Except.ok (zipAssign posts dates)

/-- The assignment loop of the `optimal_times` branch: walk the candidate
slots in order; a slot strictly after `now` consumes the next post, any
other slot is skipped; stop when slots or posts run out. -/
def optAssign (now : Int) : List Int → List Post → List (Int × Int)
  | [], _ => []
  | _, [] => []
  | t :: ts, p :: ps =>
      if t > now then (p.id, t) :: optAssign now ts ps
      else optAssign now ts (p :: ps)

/-- The `optimal_times` branch of `bulk_schedule_posts` (`app/crud.py`):
fixed `optimal_hours = [9, 12, 17, 20]` over `days_ahead` days starting
today (day-major, hour-minor), minute 0. -/
def optimalTimes (now : Int) (cfg : ScheduleConfig) (posts : List Post) :
    List (Int × Int) :=
  let daysAhead := cfg.days_ahead.getD 14
  let startDay := now.fdiv 1440
  let slots := (List.range daysAhead.toNat).flatMap fun d =>
    [9, 12, 17, 20].map fun h : Int => (startDay + (d : Int)) * 1440 + h * 60
  optAssign now slots posts

/-- Outcome of `crud.bulk_schedule_posts`: the Python `return None`
(rejected ids), an uncaught exception, or the returned preview list. -/
inductive BulkOutcome where
  | invalid
  | crash
  | ok (pairs : List (Int × Int))
deriving DecidableEq

/-- The selection query `db.query(Post).filter(Post.id.in_(post_ids),
Post.author_id == user_id).all()`: the matching rows in table order (the
SQL result order does not depend on the order of `post_ids`). -/
def postsQuery (db : List Post) (post_ids : List Int) (user_id : Int) :
    List Post :=
  db.filter fun p => decide (p.id ∈ post_ids) && decide (p.author_id = user_id)

/-- The final update loop of `bulk_schedule_posts`: each `(post_id, t)`
pair stamps `scheduled_time := t` and `status := SCHEDULED` on the matched
row. -/
def applyTimes (db : List Post) (post_ids : List Int) (user_id : Int)
    (pairs : List (Int × Int)) : List Post :=
  db.map fun p =>
    if p.id ∈ post_ids ∧ p.author_id = user_id then
      match (pairs.find? fun q => q.1 = p.id).map Prod.snd with
      | some t => { p with scheduled_time := some t,
                           status := PostStatus.scheduled }
      | none => p
    else p

/-- `crud.bulk_schedule_posts` (`app/crud.py` lines 384-517): fetch the
owned posts, reject unless they are nonempty and exactly as many as
`post_ids`, dispatch on the strategy tag (an unrecognized tag leaves
`schedule_times` empty), then write the times back and return the preview
list together with the updated table. -/
def bulk_schedule_posts (db : List Post) (post_ids : List Int)
    (schedule_type : String) (cfg : ScheduleConfig) (user_id : Int)
    (now : Int) : BulkOutcome × List Post :=
  let posts := postsQuery db post_ids user_id
  if posts = [] ∨ posts.length ≠ post_ids.length then (BulkOutcome.invalid, db)
  else
    let timesE : Except Unit (List (Int × Int)) :=
      if schedule_type = "evenly_spaced" then evenlySpaced cfg posts
      else if schedule_type = "specific_days" then specificDays now cfg posts
      else if schedule_type = "optimal_times" then
        Except.ok (optimalTimes now cfg posts)
      else Except.ok []
    match timesE with
    | Except.error _ => (BulkOutcome.crash, db)
    | Except.ok pairs =>
        (BulkOutcome.ok pairs, applyTimes db post_ids user_id pairs)

/-- What the `/bulk/schedule` route returns
(`app/routers/bulk_operations.py` lines 29-43): HTTP 400 only when the crud
call returned `None`; an uncaught exception becomes a server error;
otherwise HTTP 200 with the preview list (possibly empty). -/
inductive HttpResult where
  | ok (pairs : List (Int × Int))
  | badRequest
  | serverError
deriving DecidableEq

/-- The `/bulk/schedule` router wrapper around `crud.bulk_schedule_posts`. -/
def routerBulkSchedule (db : List Post) (post_ids : List Int)
    (schedule_type : String) (cfg : ScheduleConfig) (user_id : Int)
    (now : Int) : HttpResult :=
  match (bulk_schedule_posts db post_ids schedule_type cfg user_id now).1 with
  | BulkOutcome.invalid => HttpResult.badRequest
  | BulkOutcome.crash => HttpResult.serverError
  | BulkOutcome.ok pairs => HttpResult.ok pairs

/-! ### Concrete fixtures used by witnesses and counterexamples -/

/-- A post scheduled at minute 3, due in a cycle at `now = 0`. -/
def wPost : Post :=
  { id := 1, author_id := 7, content := "hello", image_url := none,
    status := PostStatus.scheduled, scheduled_time := some 3,
    published_time := none, linkedin_post_id := none,
    linkedin_share_url := none }

/-- An account with a valid (never-expiring) access token. -/
def wUser : User :=
  { id := 7, linkedin_access_token := some "tok",
    linkedin_refresh_token := none, linkedin_token_expires_at := none,
    linkedin_profile_id := some "prof" }

/-- An account whose token expired at minute 50 with no refresh token. -/
def wUserExpired : User :=
  { id := 7, linkedin_access_token := some "tok",
    linkedin_refresh_token := none,
    linkedin_token_expires_at := some 50,
    linkedin_profile_id := some "prof" }

/-- Environment where the publish call and the analytics creation succeed. -/
def wEnvOk : ItemEnv :=
  { refreshResult := Except.error (),
    publishResult := Except.ok { id := "li1", shareUrl := "url1" },
    analyticsOk := true }

/-- Environment where the publish call succeeds but the analytics-record
creation block raises. -/
def wEnvBad : ItemEnv :=
  { refreshResult := Except.error (),
    publishResult := Except.ok { id := "li1", shareUrl := "url1" },
    analyticsOk := false }

/-- A post published 3 days before cycle time 20000, with an external id. -/
def wPostOld : Post :=
  { id := 9, author_id := 7, content := "old", image_url := none,
    status := PostStatus.published, scheduled_time := none,
    published_time := some (20000 - 3 * 1440),
    linkedin_post_id := some "li9", linkedin_share_url := none }

/-- A metrics record of `wPostOld` last synced 2 days before time 20000. -/
def wRecStale : Analytics :=
  { post_id := 9, user_id := 7, impressions := 0, clicks := 0, likes := 0,
    comments := 0, shares := 0, engagement_rate := 0,
    last_synced := some (20000 - 2 * 1440) }

/-- A metrics record carrying 125 impressions (written through the
analytics update endpoint). -/
def wRecImp125 : Analytics :=
  { post_id := 9, user_id := 7, impressions := 125, clicks := 0, likes := 0,
    comments := 0, shares := 0, engagement_rate := 0, last_synced := none }

/-- A metrics record of `wPostOld` whose `last_synced` is NULL. -/
def wRecNull : Analytics :=
  { post_id := 9, user_id := 7, impressions := 0, clicks := 0, likes := 0,
    comments := 0, shares := 0, engagement_rate := 0, last_synced := none }

/-- A draft post with id 1 owned by user 7, as stored in the posts table. -/
def wDbPost1 : Post :=
  { id := 1, author_id := 7, content := "one", image_url := none,
    status := PostStatus.draft, scheduled_time := none,
    published_time := none, linkedin_post_id := none,
    linkedin_share_url := none }

/-- A draft post with id 2 owned by user 7, stored after `wDbPost1`. -/
def wDbPost2 : Post :=
  { id := 2, author_id := 7, content := "two", image_url := none,
    status := PostStatus.draft, scheduled_time := none,
    published_time := none, linkedin_post_id := none,
    linkedin_share_url := none }

/-- The happy-path cycle on `wPost` commits exactly Published. -/
theorem wCycleOk :
    processCycle 0 [wPost] (fun _ => some wUser) (fun _ => wEnvOk) =
      [(1, [PostStatus.published])] := by
  rfl

/-! ### Helper lemmas -/

theorem mem_selectDuePosts (now : Int) (posts : List Post) (p : Post) :
    p ∈ selectDuePosts now posts ↔
      p ∈ posts ∧ p.status = PostStatus.scheduled ∧
        ∃ t, p.scheduled_time = some t ∧ now - 5 < t ∧ t ≤ now + 5 := by
  unfold selectDuePosts
  rw [List.mem_filter]
  cases h : p.scheduled_time with
  | none => simp [h]
  | some t =>
      simp only [h, Bool.and_eq_true, decide_eq_true_eq, Option.some.injEq]
      constructor
      · rintro ⟨hm, hs, h1, h2⟩
        exact ⟨hm, hs, t, rfl, h2, h1⟩
      · rintro ⟨hm, hs, t1, rfl, h1, h2⟩
        exact ⟨hm, hs, h2, h1⟩

theorem publishPhase_cases (now : Int) (env : ItemEnv) (post : Post) :
    (publishPhase now env post).committed = [PostStatus.failed] ∨
    (publishPhase now env post).committed = [PostStatus.published] ∨
    ((publishPhase now env post).committed =
        [PostStatus.published, PostStatus.failed] ∧ env.analyticsOk = false) := by
  unfold publishPhase
  cases env.publishResult with
  | error e => exact Or.inl rfl
  | ok r =>
      cases h : env.analyticsOk with
      | true => exact Or.inr (Or.inl (by simp))
      | false => exact Or.inr (Or.inr (by simp))

theorem processItem_cases (now : Int) (env : ItemEnv) (user : User)
    (post : Post) :
    (processItem now env user post).committed = [PostStatus.failed] ∨
    (processItem now env user post).committed = [PostStatus.published] ∨
    ((processItem now env user post).committed =
        [PostStatus.published, PostStatus.failed] ∧ env.analyticsOk = false) := by
  unfold processItem
  cases user.linkedin_access_token with
  | none => exact Or.inl rfl
  | some tok =>
      simp only
      split
      · cases user.linkedin_refresh_token with
        | none => exact Or.inl rfl
        | some r =>
            cases env.refreshResult with
            | error e => exact Or.inl rfl
            | ok td => exact publishPhase_cases now env post
      · exact publishPhase_cases now env post

/-! ### C1 -/

/-- C1 (amended): in a publish-worker cycle, Published is only ever
recorded for a post selected with status Scheduled, and the only way one
per-item iteration records both Published and Failed for the same post is
that the post-publish analytics-record creation block raised. -/
theorem C1_publish_transitions (now : Int) (posts : List Post)
    (users : Int → Option User) (envs : Int → ItemEnv)
    (x : Int × List PostStatus) (hx : x ∈ processCycle now posts users envs) :
    (PostStatus.published ∈ x.2 →
      ∃ p, p ∈ posts ∧ p.id = x.1 ∧ p.status = PostStatus.scheduled) ∧
    (PostStatus.published ∈ x.2 → PostStatus.failed ∈ x.2 →
      (envs x.1).analyticsOk = false) := by
  unfold processCycle at hx
  obtain ⟨p, hp, hxeq⟩ := List.mem_map.mp hx
  obtain ⟨hmem, hstat, -⟩ := (mem_selectDuePosts now posts p).mp hp
  cases hu : users p.author_id with
  | none =>
      rw [hu] at hxeq
      dsimp only at hxeq
      subst hxeq
      constructor <;> intro hpub <;> simp at hpub
  | some u =>
      rw [hu] at hxeq
      dsimp only at hxeq
      subst hxeq
      refine ⟨fun _ => ⟨p, hmem, rfl, hstat⟩, fun hpub hfail => ?_⟩
      dsimp only at hpub hfail ⊢
      rcases processItem_cases now (envs p.id) u p with h | h | ⟨h, ha⟩
      · rw [h] at hpub
        simp at hpub
      · rw [h] at hfail
        simp at hfail
      · exact ha

/-- Witness for C1: a concrete cycle in which the theorem's hypotheses hold. -/
theorem C1_publish_transitions_witness :
    ∃ p, p ∈ [wPost] ∧ p.id = (1 : Int) ∧ p.status = PostStatus.scheduled :=
  (C1_publish_transitions 0 [wPost] (fun _ => some wUser) (fun _ => wEnvOk)
    (1, [PostStatus.published])
    (by rw [wCycleOk]; exact List.mem_singleton.mpr rfl)).1
    (by decide)

/-- Counterexample to C1 as stated: when the analytics-record creation
fails after a successful publish, the same iteration records Published and
then Failed for the same post. -/
theorem C1_counterexample :
    processCycle 0 [wPost] (fun _ => some wUser) (fun _ => wEnvBad) =
      [(1, [PostStatus.published, PostStatus.failed])] := by
  rfl

/-! ### C5 -/

/-- C5: a due item whose account has no access token, or an expired token
with no refresh token, or whose token refresh call fails, is marked Failed,
no publish call is attempted, and Failed is the only status recorded (in
particular it is not left Scheduled). -/
theorem C5_token_failure (now : Int) (env : ItemEnv) (user : User)
    (post : Post)
    (h : user.linkedin_access_token = none ∨
      ((∃ e, user.linkedin_token_expires_at = some e ∧ e ≤ now) ∧
       (user.linkedin_refresh_token = none ∨
        ∃ er, env.refreshResult = Except.error er))) :
    (processItem now env user post).post.status = PostStatus.failed ∧
    (processItem now env user post).publishAttempted = false ∧
    (processItem now env user post).committed = [PostStatus.failed] := by
  unfold processItem
  rcases h with h | ⟨⟨e, he, hle⟩, h2⟩
  · rw [h]
    exact ⟨rfl, rfl, rfl⟩
  · cases htok : user.linkedin_access_token with
    | none => exact ⟨rfl, rfl, rfl⟩
    | some tok =>
        simp only [he]
        rw [if_pos (decide_eq_true hle)]
        rcases h2 with hr | ⟨er, her⟩
        · rw [hr]
          exact ⟨rfl, rfl, rfl⟩
        · cases hrt : user.linkedin_refresh_token with
          | none => exact ⟨rfl, rfl, rfl⟩
          | some r =>
              rw [her]
              exact ⟨rfl, rfl, rfl⟩

/-- Witness for C5 at a concrete expired-token account with no refresh
token. -/
theorem C5_token_failure_witness :
    (processItem 100 wEnvOk wUserExpired wPost).post.status =
        PostStatus.failed ∧
    (processItem 100 wEnvOk wUserExpired wPost).publishAttempted = false ∧
    (processItem 100 wEnvOk wUserExpired wPost).committed =
        [PostStatus.failed] :=
  C5_token_failure 100 wEnvOk wUserExpired wPost
    (Or.inr ⟨⟨50, rfl, by decide⟩, Or.inl rfl⟩)

/-! ### C6 -/

/-- C6: a post is selected by the publish worker's query exactly when its
status is Scheduled and its scheduled time lies in the half-open window
`(now - 5, now + 5]` (a NULL scheduled time is never selected). -/
theorem C6_due_window (now : Int) (posts : List Post) (p : Post) :
    p ∈ selectDuePosts now posts ↔
      p ∈ posts ∧ p.status = PostStatus.scheduled ∧
        ∃ t, p.scheduled_time = some t ∧ now - 5 < t ∧ t ≤ now + 5 :=
  mem_selectDuePosts now posts p

/-- Witness for C6 at a concrete in-window post. -/
theorem C6_due_window_witness : wPost ∈ selectDuePosts 0 [wPost] :=
  (C6_due_window 0 [wPost] wPost).mpr
    ⟨by decide, rfl, 3, rfl, by decide, by decide⟩

/-! ### Analytics-sync helper lemmas -/

theorem hasStaleSynced_iff (cutoff : Int) (recs : List Analytics)
    (pid : Int) :
    hasStaleSynced cutoff recs pid = true ↔
      ∃ a, a ∈ recs ∧ a.post_id = pid ∧
        ∃ ls, a.last_synced = some ls ∧ ls ≤ cutoff := by
  unfold hasStaleSynced
  rw [List.any_eq_true]
  constructor
  · rintro ⟨a, ha, hcond⟩
    rw [Bool.and_eq_true] at hcond
    obtain ⟨h1, h2⟩ := hcond
    cases hls : a.last_synced with
    | none => rw [hls] at h2; simp at h2
    | some ls =>
        rw [hls] at h2
        exact ⟨a, ha, of_decide_eq_true h1, ls, hls, of_decide_eq_true h2⟩
  · rintro ⟨a, ha, hpid, ls, hls, hle⟩
    exact ⟨a, ha, by simp [hpid, hls, hle]⟩

theorem mem_analyticsCandidates (now : Int) (posts : List Post)
    (recs : List Analytics) (p : Post) :
    p ∈ analyticsCandidates now posts recs ↔
      p ∈ posts ∧ p.status = PostStatus.published ∧
      (∃ s, p.linkedin_post_id = some s) ∧
      ∃ t, p.published_time = some t ∧
        (now - 1440 ≤ t ∨
         (now - 7 * 1440 ≤ t ∧
          ∃ a, a ∈ recs ∧ a.post_id = p.id ∧
            ∃ ls, a.last_synced = some ls ∧ ls ≤ now - 1440)) := by
  unfold analyticsCandidates
  rw [List.mem_filter]
  unfold needsSync
  cases hpt : p.published_time with
  | none => simp [hpt]
  | some t =>
      simp only [hpt, Bool.and_eq_true, Bool.or_eq_true, decide_eq_true_eq,
        Option.isSome_iff_exists, Option.some.injEq]
      constructor
      · rintro ⟨hm, ⟨hs, hli⟩, h | ⟨hst, hw⟩⟩
        · exact ⟨hm, hs, hli, t, rfl, Or.inl h⟩
        · exact ⟨hm, hs, hli, t, rfl, Or.inr
            ⟨hw, (hasStaleSynced_iff (now - 1440) recs p.id).mp hst⟩⟩
      · rintro ⟨hm, hs, hli, t1, rfl, h | ⟨hw, hst⟩⟩
        · exact ⟨hm, ⟨hs, hli⟩, Or.inl h⟩
        · exact ⟨hm, ⟨hs, hli⟩, Or.inr
            ⟨(hasStaleSynced_iff (now - 1440) recs p.id).mpr hst, hw⟩⟩

/-- Total item count held by a `posts_by_user` grouping. -/
def sumLen (gs : List (Int × List Post)) : Nat :=
  (gs.map fun g => g.2.length).sum

theorem sumLen_addToGroups (gs : List (Int × List Post)) (p : Post) :
    sumLen (addToGroups gs p) = sumLen gs + 1 := by
  induction gs with
  | nil => rfl
  | cons hd rest ih =>
      obtain ⟨u, g⟩ := hd
      unfold addToGroups
      split
      · simp [sumLen]
        omega
      · simp only [sumLen, List.map_cons, List.sum_cons] at ih ⊢
        omega

theorem sumLen_foldl (l : List Post) (gs : List (Int × List Post)) :
    sumLen (l.foldl addToGroups gs) = sumLen gs + l.length := by
  induction l generalizing gs with
  | nil => simp
  | cons p ps ih =>
      rw [List.foldl_cons, ih, sumLen_addToGroups]
      simp
      omega

theorem flatMap_groups_le (gs : List (Int × List Post))
    (ok : Int → Bool) :
    (gs.flatMap fun g => if ok g.1 then g.2 else []).length ≤ sumLen gs := by
  induction gs with
  | nil => simp [sumLen]
  | cons g rest ih =>
      rw [List.flatMap_cons, List.length_append]
      have hsum : sumLen (g :: rest) = g.2.length + sumLen rest := by
        simp [sumLen]
      have h2 : (if ok g.1 then g.2 else []).length ≤ g.2.length := by
        split
        · exact Nat.le_refl _
        · exact Nat.zero_le _
      omega

/-! ### C7 -/

/-- C7 (amended): the analytics-sync selection filter picks exactly the
Published items with an external identifier and a non-NULL published time
that is either within the last 24 hours, or within the last 7 days while
some metrics record of the item carries a non-NULL `lastSynced` at least
24 hours old; consequently nothing published more than 7 days ago (or with
an unset `lastSynced` outside the 24-hour band) is selected. -/
theorem C7_sync_selection (now : Int) (posts : List Post)
    (recs : List Analytics) (p : Post) :
    (p ∈ analyticsCandidates now posts recs ↔
      p ∈ posts ∧ p.status = PostStatus.published ∧
      (∃ s, p.linkedin_post_id = some s) ∧
      ∃ t, p.published_time = some t ∧
        (now - 1440 ≤ t ∨
         (now - 7 * 1440 ≤ t ∧
          ∃ a, a ∈ recs ∧ a.post_id = p.id ∧
            ∃ ls, a.last_synced = some ls ∧ ls ≤ now - 1440))) ∧
    (p ∈ analyticsCandidates now posts recs →
      ∀ t, p.published_time = some t → now - 7 * 1440 ≤ t) := by
  refine ⟨mem_analyticsCandidates now posts recs p, fun hp t ht => ?_⟩
  obtain ⟨-, -, -, t1, ht1, hdisj⟩ :=
    (mem_analyticsCandidates now posts recs p).mp hp
  rw [ht] at ht1
  obtain rfl : t = t1 := Option.some.inj ht1
  rcases hdisj with h | ⟨h, -⟩
  · omega
  · exact h

/-- Witness for C7: a post published 3 days ago whose metrics record was
last synced 2 days ago is selected. -/
theorem C7_sync_selection_witness :
    wPostOld ∈ analyticsCandidates 20000 [wPostOld] [wRecStale] := by
  refine (C7_sync_selection 20000 [wPostOld] [wRecStale] wPostOld).1.mpr
    ⟨List.mem_singleton.mpr rfl, rfl, ⟨"li9", rfl⟩, 20000 - 3 * 1440, rfl,
      Or.inr ⟨by decide, wRecStale, List.mem_singleton.mpr rfl, rfl,
        20000 - 2 * 1440, rfl, by decide⟩⟩

/-- Counterexample to C7 as stated: a post published 3 days ago whose only
metrics record has an unset (NULL) `lastSynced` is NOT selected — the SQL
`has(last_synced <= cutoff)` test is false on NULL, while the claim says
such an item is selected. -/
theorem C7_counterexample :
    analyticsCandidates 20000 [wPostOld] [wRecNull] = [] := by
  rfl

/-! ### C8 -/

/-- C8: one analytics-sync cycle processes at most 20 items in total,
summed over all account groups, whatever the tables hold. -/
theorem C8_sync_cap (now : Int) (posts : List Post) (recs : List Analytics)
    (userTokenOk : Int → Bool) :
    (syncProcessed now posts recs userTokenOk).length ≤ 20 := by
  unfold syncProcessed groupByUser
  refine (flatMap_groups_le _ _).trans ?_
  rw [sumLen_foldl]
  have : (postsToSync now posts recs).length ≤ 20 := by
    unfold postsToSync
    rw [List.length_take]
    exact Nat.min_le_left _ _
  simpa [sumLen] using this

/-! ### C9 -/

/-- C9 (amended): with zero impressions the metric-refresh update performs
no division and leaves the stored engagement rate unchanged — hence still
0 for records as the workers create them (both fields default 0), though
not for records previously written through the analytics update endpoint,
which can store a nonzero rate next to zero impressions; with positive
impressions the division is performed and the stored rate is the
nonnegative binary64 value `int((likes + comments + shares) / impressions
* 10000)`, which can differ from the exact truncated rational. -/
theorem C9_engagement_rate (now : Int) (a : Analytics) (d : ApiAnalytics) :
    (a.impressions = 0 → (syncUpdateRecord now a d).2 = false ∧
      (syncUpdateRecord now a d).1.engagement_rate = a.engagement_rate) ∧
    (a.impressions = 0 → a.engagement_rate = 0 →
      (syncUpdateRecord now a d).1.engagement_rate = 0) ∧
    (0 < a.impressions → (syncUpdateRecord now a d).2 = true ∧
      (syncUpdateRecord now a d).1.engagement_rate =
        (pyEngagementRate (d.likes + d.comments + d.shares)
          a.impressions : Int) ∧
      0 ≤ (syncUpdateRecord now a d).1.engagement_rate) ∧
    (∀ pid uid : Int, (newAnalytics pid uid).impressions = 0 ∧
      (newAnalytics pid uid).engagement_rate = 0) := by
  by_cases h : 0 < a.impressions
  · have h1 : (syncUpdateRecord now a d).2 = true ∧
        (syncUpdateRecord now a d).1.engagement_rate =
          (pyEngagementRate (d.likes + d.comments + d.shares)
            a.impressions : Int) := by
      simp only [syncUpdateRecord]
      split
      · exact ⟨rfl, rfl⟩
      · omega
    refine ⟨fun h0 => absurd h0 (by omega), fun h0 _ => absurd h0 (by omega),
      fun _ => ⟨h1.1, h1.2, ?_⟩, fun pid uid => ⟨rfl, rfl⟩⟩
    rw [h1.2]
    exact Int.ofNat_nonneg _
  · have h1 : (syncUpdateRecord now a d).2 = false ∧
        (syncUpdateRecord now a d).1.engagement_rate = a.engagement_rate := by
      simp only [syncUpdateRecord]
      split
      · omega
      · exact ⟨rfl, rfl⟩
    exact ⟨fun _ => h1, fun _ hz => by rw [h1.2, hz],
      fun hpos => absurd hpos h, fun pid uid => ⟨rfl, rfl⟩⟩

set_option maxRecDepth 20000 in
/-- Witness for C9: on a record with 125 impressions and fetched counters
summing to 86, the sync divides and stores the binary64 result 6879. -/
theorem C9_engagement_rate_witness :
    (syncUpdateRecord 5 wRecImp125 ⟨40, 30, 16⟩).2 = true ∧
    (syncUpdateRecord 5 wRecImp125 ⟨40, 30, 16⟩).1.engagement_rate = 6879 := by
  have h := (C9_engagement_rate 5 wRecImp125 ⟨40, 30, 16⟩).2.2.1 (by decide)
  exact ⟨h.1, h.2.1.trans (by decide)⟩

set_option maxRecDepth 20000 in
/-- Counterexample to C9 as stated: (i) a worker-created record updated
through the analytics endpoint (crud.create_or_update_analytics) can carry
engagement rate 7 with 0 impressions, and the sync step then leaves the
stored rate at 7, not 0; (ii) with 86 total engagements over 125
impressions the program stores the binary64 truncation 6879, not the exact
truncated rational 6880. -/
theorem C9_counterexample :
    (applyAnalyticsUpdate (newAnalytics 9 7)
        { engagement_rate := some 7 }).impressions = 0 ∧
    (syncUpdateRecord 20000
        (applyAnalyticsUpdate (newAnalytics 9 7)
          { engagement_rate := some 7 })
        ⟨0, 0, 0⟩).1.engagement_rate = 7 ∧ (7 : Int) ≠ 0 ∧
    pyEngagementRate 86 125 = 6879 ∧ 86 * 10000 / 125 = 6880 :=
  ⟨rfl, rfl, by decide, by decide, by decide⟩

/-! ### Scheduling helper lemmas -/

theorem slotTimes_gt (now d : Int) :
    ∀ (slots : List (Nat × Nat)) (ts : List Int),
      slotTimes now d slots = Except.ok ts → ∀ t ∈ ts, now < t := by
  intro slots
  induction slots with
  | nil =>
      intro ts h t ht
      simp only [slotTimes] at h
      cases h
      simp at ht
  | cons sm rest ih =>
      intro ts h t ht
      obtain ⟨hS, mS⟩ := sm
      simp only [slotTimes] at h
      split at h
      · cases h
      · split at h
        · cases h
        · rename_i ts' hrest
          cases h
          by_cases hgt : d * 1440 + (hS : Int) * 60 + (mS : Int) > now
          · rw [if_pos hgt] at ht
            rcases List.mem_cons.mp ht with rfl | ht'
            · exact hgt
            · exact ih ts' hrest t ht'
          · rw [if_neg hgt] at ht
            exact ih ts' hrest t ht

theorem buildDates_gt (now : Int) (weekdays : List Int)
    (slots : List (Nat × Nat)) :
    ∀ (days : List Int) (dates : List Int),
      buildDates now weekdays slots days = Except.ok dates →
      ∀ t ∈ dates, now < t := by
  intro days
  induction days with
  | nil =>
      intro dates h t ht
      simp only [buildDates] at h
      cases h
      simp at ht
  | cons d ds ih =>
      intro dates h t ht
      simp only [buildDates] at h
      split at h
      · split at h
        · cases h
        · rename_i ts hts
          split at h
          · cases h
          · rename_i rest hrest
            cases h
            rcases List.mem_append.mp ht with h1 | h2
            · exact slotTimes_gt now d slots ts hts t h1
            · exact ih rest hrest t h2
      · exact ih dates h t ht

theorem zipAssign_mem (x : Int × Int) :
    ∀ (posts : List Post) (dates : List Int),
      x ∈ zipAssign posts dates → x.2 ∈ dates := by
  intro posts
  induction posts with
  | nil => intro dates hx; simp [zipAssign] at hx
  | cons p ps ih =>
      intro dates hx
      cases dates with
      | nil => simp [zipAssign] at hx
      | cons d ds =>
          rcases List.mem_cons.mp hx with rfl | hx'
          · exact List.mem_cons_self d ds
          · exact List.mem_cons_of_mem d (ih ds hx')

theorem specificDays_ok (now : Int) (cfg : ScheduleConfig)
    (posts : List Post) (tim : List (Int × Int))
    (h : specificDays now cfg posts = Except.ok tim) :
    ∃ dates,
      buildDates now ((cfg.days.getD ["Monday"]).filterMap dayMap)
        (cfg.time_slots.getD [(9, 0)])
        (mkDayRange (now.fdiv 1440)
          (now.fdiv 1440 + 7 * cfg.weeks_ahead.getD 4)) = Except.ok dates ∧
      tim = zipAssign posts dates := by
  simp only [specificDays] at h
  split at h
  · cases h
  · rename_i dates hb
    cases h
    exact ⟨dates, hb, rfl⟩

theorem optAssign_gt (now : Int) :
    ∀ (slots : List Int) (ps : List Post) (x : Int × Int),
      x ∈ optAssign now slots ps → now < x.2 := by
  intro slots
  induction slots with
  | nil => intro ps x hx; simp [optAssign] at hx
  | cons t ts ih =>
      intro ps x hx
      cases ps with
      | nil => simp [optAssign] at hx
      | cons p ps' =>
          simp only [optAssign] at hx
          by_cases hgt : t > now
          · rw [if_pos hgt] at hx
            rcases List.mem_cons.mp hx with rfl | hx'
            · exact hgt
            · exact ih ps' x hx'
          · rw [if_neg hgt] at hx
            exact ih (p :: ps') x hx

/-! ### C2 -/

/-- C2 (amended): every timestamp produced by the SpecificDays and
OptimalTimes strategies is strictly greater than the allocation-time now
(both branches guard each candidate with `scheduled_time > now`); the
EvenlySpaced branch carries no such guard. -/
theorem C2_future_times (db : List Post) (post_ids : List Int) (st : String)
    (cfg : ScheduleConfig) (uid now : Int) (pairs : List (Int × Int))
    (hst : st = "specific_days" ∨ st = "optimal_times")
    (hok : (bulk_schedule_posts db post_ids st cfg uid now).1 =
      BulkOutcome.ok pairs) :
    ∀ x ∈ pairs, now < x.2 := by
  simp only [bulk_schedule_posts] at hok
  split at hok
  · simp at hok
  · split at hok
    · simp at hok
    · rename_i pairs' heq
      simp only at hok
      obtain rfl : pairs' = pairs := BulkOutcome.ok.inj hok
      rcases hst with rfl | rfl
      · rw [if_neg (by decide), if_pos rfl] at heq
        obtain ⟨dates, hb, rfl⟩ :=
          specificDays_ok now cfg (postsQuery db post_ids uid) pairs' heq
        intro x hx
        exact buildDates_gt now _ _ _ dates hb x.2
          (zipAssign_mem x (postsQuery db post_ids uid) dates hx)
      · rw [if_neg (by decide), if_neg (by decide), if_pos rfl] at heq
        obtain rfl := Except.ok.inj heq
        intro x hx
        simp only [optimalTimes] at hx
        exact optAssign_gt now _ _ x hx

/-- Witness for C2: a concrete OptimalTimes request at `now = 0`. -/
theorem C2_future_times_witness :
    (bulk_schedule_posts [wDbPost1] [1] "optimal_times" {} 7 0).1 =
      BulkOutcome.ok [(1, 540)] ∧ (0 : Int) < 540 :=
  ⟨by rfl,
   C2_future_times [wDbPost1] [1] "optimal_times" {} 7 0 [(1, 540)]
     (Or.inr rfl) (by rfl) (1, 540) (List.mem_singleton.mpr rfl)⟩

/-- Counterexample to C2 as stated: an EvenlySpaced request whose
configured window lies in the past is scheduled into the past (time 540,
while `now = 10000`). -/
theorem C2_counterexample :
    (bulk_schedule_posts [wDbPost1] [1] "evenly_spaced"
        { start_date := some 0, end_date := some 0 } 7 10000).1 =
      BulkOutcome.ok [(1, 540)] ∧ ¬ ((10000 : Int) < 540) :=
  ⟨by rfl, by decide⟩

theorem applyTimes_nil (db : List Post) (post_ids : List Int) (uid : Int) :
    applyTimes db post_ids uid [] = db := by
  unfold applyTimes
  have h : ∀ p : Post,
      (if p.id ∈ post_ids ∧ p.author_id = uid then
        match (([] : List (Int × Int)).find? fun q => q.1 = p.id).map
            Prod.snd with
        | some t => { p with scheduled_time := some t,
                             status := PostStatus.scheduled }
        | none => p
      else p) = p := by
    intro p
    split
    · rfl
    · rfl
  simp only [h]
  exact List.map_id db

/-! ### C3 -/

/-- C3 (amended): a request whose strategy tag is unrecognized is not
rejected with a validation error — every dispatch branch is skipped, so the
call returns a normal empty result (HTTP 200 with an empty preview list
once the ids pass the ownership check, HTTP 400 from the id check
otherwise) and no post's status or scheduled time changes. -/
theorem C3_unrecognized_tag (db : List Post) (post_ids : List Int)
    (st : String) (cfg : ScheduleConfig) (uid now : Int)
    (h : ¬ st = "evenly_spaced" ∧ ¬ st = "specific_days" ∧
      ¬ st = "optimal_times") :
    (bulk_schedule_posts db post_ids st cfg uid now).2 = db ∧
    ((bulk_schedule_posts db post_ids st cfg uid now).1 =
        BulkOutcome.invalid ∨
     (bulk_schedule_posts db post_ids st cfg uid now).1 =
        BulkOutcome.ok []) := by
  simp only [bulk_schedule_posts]
  split
  · exact ⟨rfl, Or.inl rfl⟩
  · rw [if_neg h.1, if_neg h.2.1, if_neg h.2.2]
    exact ⟨applyTimes_nil db post_ids uid, Or.inr rfl⟩

/-- Witness for C3 at the unrecognized tag `"banana"` with a valid id
list. -/
theorem C3_unrecognized_tag_witness :
    (bulk_schedule_posts [wDbPost1] [1] "banana" {} 7 0).2 = [wDbPost1] ∧
    ((bulk_schedule_posts [wDbPost1] [1] "banana" {} 7 0).1 =
        BulkOutcome.invalid ∨
     (bulk_schedule_posts [wDbPost1] [1] "banana" {} 7 0).1 =
        BulkOutcome.ok []) :=
  C3_unrecognized_tag [wDbPost1] [1] "banana" {} 7 0
    ⟨by decide, by decide, by decide⟩

/-- Counterexample to C3 as stated: with owned ids and the unrecognized
tag `"banana"` the route answers HTTP 200 with an empty list — not a
validation error — and the posts table is untouched. -/
theorem C3_counterexample :
    routerBulkSchedule [wDbPost1] [1] "banana" {} 7 0 = HttpResult.ok [] ∧
    (bulk_schedule_posts [wDbPost1] [1] "banana" {} 7 0).2 = [wDbPost1] := by
  exact ⟨by rfl, by rfl⟩

theorem zipAssign_fst :
    ∀ (posts : List Post) (dates : List Int),
      (zipAssign posts dates).map Prod.fst =
        (posts.map Post.id).take dates.length := by
  intro posts
  induction posts with
  | nil => intro dates; simp [zipAssign]
  | cons p ps ih =>
      intro dates
      cases dates with
      | nil => simp [zipAssign]
      | cons d ds =>
          simp only [zipAssign, List.zipWith_cons_cons, List.map_cons,
            List.length_cons, List.take_succ_cons]
          rw [← zipAssign, ih ds]

theorem optAssign_fst (now : Int) :
    ∀ (slots : List Int) (ps : List Post),
      ∃ k, (optAssign now slots ps).map Prod.fst =
        (ps.map Post.id).take k := by
  intro slots
  induction slots with
  | nil => intro ps; exact ⟨0, by simp [optAssign]⟩
  | cons t ts ih =>
      intro ps
      cases ps with
      | nil => exact ⟨0, by simp [optAssign]⟩
      | cons p ps' =>
          by_cases hgt : t > now
          · obtain ⟨k, hk⟩ := ih ps'
            refine ⟨k + 1, ?_⟩
            simp only [optAssign, if_pos hgt, List.map_cons,
              List.take_succ_cons]
            rw [hk]
          · obtain ⟨k, hk⟩ := ih (p :: ps')
            refine ⟨k, ?_⟩
            simp only [optAssign, if_neg hgt]
            exact hk

theorem evenBranch1_fst (ed : Int) (slots : List (Nat × Nat)) :
    ∀ (ps : List Post) (cur : Int) (idx : Nat) (pairs : List (Int × Int)),
      evenBranch1 ed slots ps cur idx = Except.ok pairs →
      ∃ k, pairs.map Prod.fst = (ps.map Post.id).take k := by
  intro ps
  induction ps with
  | nil =>
      intro cur idx pairs h
      simp only [evenBranch1] at h
      cases h
      exact ⟨0, by simp⟩
  | cons p ps' ih =>
      intro cur idx pairs h
      simp only [evenBranch1] at h
      split at h
      · cases h
        exact ⟨0, by simp⟩
      · split at h
        · cases h
        · split at h
          · cases h
          · split at h
            · cases h
            · rename_i rest hrest
              cases h
              obtain ⟨k, hk⟩ := ih _ _ rest hrest
              refine ⟨k + 1, ?_⟩
              simp only [List.map_cons, List.take_succ_cons]
              rw [hk]

theorem enum_pairs_fst (posts : List Post) (f : Nat × Post → Int) :
    ((posts.enum.map fun ip => (ip.2.id, f ip)).map Prod.fst) =
      posts.map Post.id := by
  rw [List.map_map]
  have h1 : (Prod.fst ∘ fun ip : Nat × Post => (ip.2.id, f ip)) =
      (Post.id ∘ Prod.snd) := rfl
  rw [h1, ← List.map_map, List.enum_map_snd]

theorem evenBranch2_fst (sd : Int) (slots : List (Nat × Nat))
    (posts : List Post) (daysBetween : Int) (pairs : List (Int × Int))
    (h : evenBranch2 sd slots posts daysBetween = Except.ok pairs) :
    pairs.map Prod.fst = posts.map Post.id := by
  simp only [evenBranch2] at h
  split at h
  · cases h
  · split at h
    · cases h
    · cases h
      exact enum_pairs_fst posts _

theorem evenlySpaced_fst (cfg : ScheduleConfig) (posts : List Post)
    (pairs : List (Int × Int))
    (h : evenlySpaced cfg posts = Except.ok pairs) :
    ∃ k, pairs.map Prod.fst = (posts.map Post.id).take k := by
  simp only [evenlySpaced] at h
  split at h
  · split at h
    · cases h
    · split at h
      · exact evenBranch1_fst _ _ posts _ 0 pairs h
      · refine ⟨(posts.map Post.id).length, ?_⟩
        rw [evenBranch2_fst _ _ _ _ _ h, List.take_length]
  · cases h

/-! ### C4 -/

/-- C4 (amended): the preview pairs assign timestamps to posts following
the order in which the selection query returns the matched rows (table
order in the model), not the caller-supplied id order: the identifier
sequence of the output is always a prefix of the query result's identifier
sequence. -/
theorem C4_query_order (db : List Post) (post_ids : List Int) (st : String)
    (cfg : ScheduleConfig) (uid now : Int) (pairs : List (Int × Int))
    (hok : (bulk_schedule_posts db post_ids st cfg uid now).1 =
      BulkOutcome.ok pairs) :
    ∃ k, pairs.map Prod.fst =
      ((postsQuery db post_ids uid).map Post.id).take k := by
  simp only [bulk_schedule_posts] at hok
  split at hok
  · simp at hok
  · split at hok
    · simp at hok
    · rename_i pairs' heq
      obtain rfl : pairs' = pairs := BulkOutcome.ok.inj hok
      split at heq
      · exact evenlySpaced_fst cfg _ pairs' heq
      · split at heq
        · obtain ⟨dates, -, rfl⟩ :=
            specificDays_ok now cfg (postsQuery db post_ids uid) pairs' heq
          exact ⟨dates.length, zipAssign_fst _ dates⟩
        · split at heq
          · obtain rfl := Except.ok.inj heq
            simp only [optimalTimes]
            exact optAssign_fst now _ _
          · obtain rfl := Except.ok.inj heq
            exact ⟨0, by simp⟩

/-- Witness for C4: the two-post OptimalTimes request assigns ids in query
order `[1, 2]`. -/
theorem C4_query_order_witness :
    ∃ k, ([((1 : Int), (540 : Int)), (2, 720)].map Prod.fst) =
      ((postsQuery [wDbPost1, wDbPost2] [2, 1] 7).map Post.id).take k :=
  C4_query_order [wDbPost1, wDbPost2] [2, 1] "optimal_times" {} 7 0
    [(1, 540), (2, 720)] (by rfl)

/-- Counterexample to C4 as stated: with input id order `[2, 1]` the
output names id 1 first (database order), so the i-th output pair does not
name the i-th requested identifier. -/
theorem C4_counterexample :
    (bulk_schedule_posts [wDbPost1, wDbPost2] [2, 1] "optimal_times" {} 7
        0).1 = BulkOutcome.ok [(1, 540), (2, 720)] ∧
    [((1 : Int), (540 : Int)), (2, 720)].map Prod.fst ≠ [2, 1] :=
  ⟨by rfl, by decide⟩

theorem postsQuery_id_nodup (db : List Post) (post_ids : List Int)
    (uid : Int) (hnd : (db.map Post.id).Nodup) :
    ((postsQuery db post_ids uid).map Post.id).Nodup :=
  hnd.sublist ((List.filter_sublist db).map Post.id)

theorem postsQuery_id_subset (db : List Post) (post_ids : List Int)
    (uid : Int) (y : Int)
    (hy : y ∈ (postsQuery db post_ids uid).map Post.id) : y ∈ post_ids := by
  obtain ⟨p, hp, rfl⟩ := List.mem_map.mp hy
  obtain ⟨-, hpred⟩ := List.mem_filter.mp hp
  rw [Bool.and_eq_true] at hpred
  exact of_decide_eq_true hpred.1

/-! ### C10 -/

/-- C10: a request whose id list contains a duplicate, or any id with no
owned row, fails the `len(posts) != len(post_ids)` check: the crud call
returns the rejection (`None`, a 400 for the caller) and the posts table is
unchanged.  `hnd` is the primary-key uniqueness of `posts.id`. -/
theorem C10_duplicate_or_foreign (db : List Post) (post_ids : List Int)
    (st : String) (cfg : ScheduleConfig) (uid now : Int)
    (hnd : (db.map Post.id).Nodup)
    (hbad : ¬ post_ids.Nodup ∨
      ∃ x ∈ post_ids, ∀ p ∈ db, ¬ (p.id = x ∧ p.author_id = uid)) :
    (bulk_schedule_posts db post_ids st cfg uid now).1 =
        BulkOutcome.invalid ∧
    (bulk_schedule_posts db post_ids st cfg uid now).2 = db := by
  have hlen : (postsQuery db post_ids uid).length ≠ post_ids.length := by
    have hllen : ((postsQuery db post_ids uid).map Post.id).length =
        (postsQuery db post_ids uid).length := List.length_map _ _
    rcases hbad with hA | ⟨x, hx, hforall⟩
    · have h1 : ((postsQuery db post_ids uid).map Post.id).Subperm
          post_ids.dedup :=
        List.subperm_of_subset (postsQuery_id_nodup db post_ids uid hnd)
          (fun y hy => List.mem_dedup.mpr
            (postsQuery_id_subset db post_ids uid y hy))
      have h2 := h1.length_le
      have h3 := (List.dedup_sublist post_ids).length_le
      have h4 : post_ids.dedup.length ≠ post_ids.length := by
        intro he
        exact hA (((List.dedup_sublist post_ids).eq_of_length he) ▸
          List.nodup_dedup post_ids)
      omega
    · have hnx : x ∉ (postsQuery db post_ids uid).map Post.id := by
        intro hmem
        obtain ⟨p, hp, hpid⟩ := List.mem_map.mp hmem
        obtain ⟨hpdb, hpred⟩ := List.mem_filter.mp hp
        rw [Bool.and_eq_true] at hpred
        exact hforall p hpdb ⟨hpid, of_decide_eq_true hpred.2⟩
      have h1 : ((postsQuery db post_ids uid).map Post.id).Subperm
          (post_ids.dedup.erase x) := by
        refine List.subperm_of_subset
          (postsQuery_id_nodup db post_ids uid hnd) (fun y hy => ?_)
        have hyx : y ≠ x := fun he => hnx (he ▸ hy)
        exact (List.mem_erase_of_ne hyx).mpr
          (List.mem_dedup.mpr (postsQuery_id_subset db post_ids uid y hy))
      have h2 := h1.length_le
      have h3 : (post_ids.dedup.erase x).length =
          post_ids.dedup.length - 1 :=
        List.length_erase_of_mem (List.mem_dedup.mpr hx)
      have h4 : 0 < post_ids.dedup.length :=
        List.length_pos_of_mem (List.mem_dedup.mpr hx)
      have h5 := (List.dedup_sublist post_ids).length_le
      omega
  simp only [bulk_schedule_posts]
  rw [if_pos (Or.inr hlen)]
  exact ⟨rfl, rfl⟩

/-- Witness for C10: requesting `[1, 1]` (a duplicate of an owned id) is
rejected and leaves the table unchanged. -/
theorem C10_duplicate_or_foreign_witness :
    (bulk_schedule_posts [wDbPost1] [1, 1] "optimal_times" {} 7 0).1 =
        BulkOutcome.invalid ∧
    (bulk_schedule_posts [wDbPost1] [1, 1] "optimal_times" {} 7 0).2 =
        [wDbPost1] :=
  C10_duplicate_or_foreign [wDbPost1] [1, 1] "optimal_times" {} 7 0
    (by decide) (Or.inl (by decide))

end SCA
